import Mathlib

/-!
Verification development for the scraper_news repository.

The Python sources under app/ are shallowly embedded as pure Lean
functions.  Timestamps are modelled in two complementary ways:

* a calendar record (CalDateTime) with an explicit tzinfo field, used where
  the code manipulates datetime objects field-wise (strptime parsing in
  FTScraper._parse_publish_date and record construction in
  FTScraper._extract_article_data);
* an integer instant in seconds, used where the code only compares
  datetimes against a window boundary
  (FTScraper._is_article_recent / _is_article_within_days).

Effects are made explicit: the database session becomes a list of rows
passed in and returned, the ambient clock becomes a Clock argument, and
a possible exception in the article-count query becomes a boolean flag.
-/

namespace ScraperNews

/-! ## Calendar datetimes (for the listing-date parsing path)

Python datetime objects are either naive (tzinfo is None) or aware; the
only tzinfo the code ever attaches is datetime.timezone.utc. -/

/-- The only timezone object the code uses: datetime.timezone.utc. -/
inductive TZ
  | utc
deriving DecidableEq, Repr

/-- The broken-down fields strptime produces (seconds are always 0 for
the format the code uses, so they are omitted). -/
structure TM where
  year : Nat
  month : Nat
  day : Nat
  hour : Nat
  minute : Nat
deriving DecidableEq, Repr

/-- A Python datetime value: broken-down fields plus an optional tzinfo. -/
structure CalDateTime where
  tm : TM
  tz : Option TZ
deriving DecidableEq, Repr

/-- The ambient wall clock; datetime.datetime.now reads it. -/
structure Clock where
  tm : TM
deriving DecidableEq, Repr

/-- datetime.datetime.now(datetime.timezone.utc): an aware UTC datetime. -/
def datetimeNowUtc (c : Clock) : CalDateTime :=
  ⟨c.tm, some TZ.utc⟩

/-! ## First-run detection and mode selection (app/scraper/scraper.py)

FTScraper.is_first_run counts the rows of the articles table; any
exception in that query is caught and reported as True.  The query
outcome is modelled by the row count plus a flag saying whether the
query succeeded. -/

/-- FTScraper.is_first_run: True when the articles table holds zero rows;
an exception in the count query (queryOk = false) is caught and also
yields True. -/
def isFirstRun (count : Nat) (queryOk : Bool) : Bool :=
  if queryOk then count == 0 else true

/-- FTScraper._is_article_recent with instants in seconds:
published_at is at or after now minus hoursLimit hours. -/
def isArticleRecent (now published_at : Int) (hoursLimit : Int) : Bool :=
  decide (now - hoursLimit * 3600 ≤ published_at)

/-- FTScraper._is_article_within_days with instants in seconds:
published_at is at or after now minus daysLimit days. -/
def isArticleWithinDays (now published_at : Int) (daysLimit : Int) : Bool :=
  decide (now - daysLimit * 86400 ≤ published_at)

/-- The configuration FTScraper.run_scraping hands to
scrape_articles_with_pagination: the time-filter closure and max_pages. -/
structure RunPlan where
  timeFilter : Int → Bool
  maxPages : Nat

/-- The mode-selection part of FTScraper.run_scraping: first run (store
empty, or the count query failed) selects the 30-day window with
max_pages = 100; otherwise the 1-hour window with max_pages = 5. -/
def runScrapingPlan (now : Int) (count : Nat) (queryOk : Bool) : RunPlan :=
  if isFirstRun count queryOk then
    ⟨fun d => isArticleWithinDays now d 30, 100⟩
  else
    ⟨fun d => isArticleRecent now d 1, 5⟩

/-! ## Scheduler run-type selection (app/scheduler/scheduler.py)

ScrapingScheduler.run_scraping_job selects initial vs hourly from the
in-process is_initial_run flag alone (it never queries the store), and
its finally block clears the flag after every execution. -/

/-- The slice of ScrapingScheduler state that run_scraping_job consults. -/
structure SchedulerState where
  is_initial_run : Bool
  initial_days_back : Nat
deriving DecidableEq, Repr

/-- run_type computed at the top of run_scraping_job. -/
inductive RunType
  | initial
  | hourly
deriving DecidableEq, Repr

/-- ScrapingScheduler.__init__ with INITIAL_DAYS_BACK already read. -/
def initialSchedulerState (daysBackEnv : Nat) : SchedulerState :=
  ⟨true, daysBackEnv⟩

/-- run_type = "initial" if self.is_initial_run else "hourly". -/
def runTypeOf (s : SchedulerState) : RunType :=
  if s.is_initial_run then RunType.initial else RunType.hourly

/-- days_back defaulting in run_scraping_job: the argument if given,
else initial_days_back on the first run of the process, else 1. -/
def daysBackOf (s : SchedulerState) (daysBack : Option Nat) : Nat :=
  match daysBack with
  | some d => d
  | none => if s.is_initial_run then s.initial_days_back else 1

/-- The finally block of run_scraping_job: the is_initial_run flag is
cleared after every execution, whether or not the job raised. -/
def afterJob (s : SchedulerState) : SchedulerState :=
  ⟨false, s.initial_days_back⟩

/-- Scheduler state after n executions of run_scraping_job. -/
def stateAfterRuns (s0 : SchedulerState) : Nat → SchedulerState
  | 0 => s0
  | n + 1 => afterJob (stateAfterRuns s0 n)

/-! ## Persistence (FTScraper.save_articles_to_db; app/models/models.py)

The articles table becomes a list of rows; the unique constraint
uq_article_url on url is the only way a commit can fail in this
deterministic store, so the generic-exception branch of the source
(failed_count, abort after more than 5 consecutive errors) never fires
and the outer retry loop runs its single successful pass. -/

/-- One extraction-result record as handed to save_articles_to_db: a
Python dict whose required keys may be absent.  none models an absent
key; some of the empty string models a present-but-empty value.
published_at and scraped_at are always set by _extract_article_data. -/
structure ArticleData where
  url : Option String
  title : Option String
  content : Option String
  author : Option String
  published_at : CalDateTime
  scraped_at : CalDateTime
deriving DecidableEq, Repr

/-- A persisted row of the articles table (models.Article: url, title and
content columns are NOT NULL; url carries the uq_article_url constraint). -/
structure ArticleRow where
  url : String
  title : String
  content : String
  author : Option String
  published_at : CalDateTime
  scraped_at : CalDateTime
deriving DecidableEq, Repr

/-- The validation in save_articles_to_db: all three required keys are
present in the dict (value emptiness is not inspected). -/
def requiredKeysPresent (a : ArticleData) : Bool :=
  a.url.isSome && a.title.isSome && a.content.isSome

/-- Article(**article_data): defined exactly when the key check passes,
i.e. none exactly when one of the url/title/content keys is absent. -/
def rowOf (a : ArticleData) : Option ArticleRow :=
  match a.url, a.title, a.content with
  | some u, some t, some c => some ⟨u, t, c, a.author, a.published_at, a.scraped_at⟩
  | _, _, _ => none

/-- The uq_article_url check: committing an insert raises IntegrityError
exactly when a stored row already holds this url. -/
def urlExists (db : List ArticleRow) (u : String) : Bool :=
  db.any (fun r => r.url == u)

/-- The per-record loop of save_articles_to_db over one session: skip
records missing a required key; on IntegrityError (duplicate url) roll
the record back and continue with the rest of the batch; otherwise
commit the new row and count it. -/
def saveGo : List ArticleRow → List ArticleData → Nat → List ArticleRow × Nat
  | db, [], n => (db, n)
  | db, a :: rest, n =>
    match rowOf a with
    | none => saveGo db rest n
    | some row =>
      if urlExists db row.url then saveGo db rest n
      else saveGo (db ++ [row]) rest (n + 1)

/-- FTScraper.save_articles_to_db: final table contents plus saved_count. -/
def saveArticlesToDb (db : List ArticleRow) (articles : List ArticleData) :
    List ArticleRow × Nat :=
  saveGo db articles 0

/-- A fixed aware timestamp used by concrete instances in the theorems. -/
def sampleDT : CalDateTime :=
  ⟨⟨2024, 1, 15, 10, 30⟩, some TZ.utc⟩

/-! ## Job statistics (ScrapingScheduler.run_scraping_job)

The scheduler imports scrape_article and ArticleProcessor.save_article,
which are not among the sources at hand; their per-article outcomes are
modelled from the spec (outcome per teaser is Saved, Skipped or Errored,
and an unexpected exception may surface anywhere inside per-article
processing).  Counter updates are commutative increments, so the
asyncio.gather interleaving is projected to a fold over the task list. -/

/-- Modelled from the spec: the outcome of ArticleProcessor.save_article
for one scraped article — persisted new (returns True), duplicate or
invalid skip (returns False), or an unexpected exception. -/
inductive SaveOutcome
  | saved
  | notSaved
  | raises
deriving DecidableEq, Repr

/-- Modelled from the spec: what one pending article does inside
process_article — scrape_article returns None (paywall or soft skip),
returns data whose save then has the given outcome, or raises before
extraction succeeds (transient failure escalating past retries, or any
unexpected exception in the fetch path). -/
inductive ArticleOutcome
  | scrapeNone
  | scrapeOk (save : SaveOutcome)
  | scrapeRaises
deriving DecidableEq, Repr

/-- The stats dict of run_scraping_job. -/
structure Stats where
  found : Nat
  scraped : Nat
  saved : Nat
  skipped : Nat
  errors : Nat
deriving DecidableEq, Repr

/-- The body of process_article: any exception caught by its except
branch counts as errors; a None scrape counts as skipped; a successful
scrape counts as scraped and then resolves its save outcome as saved,
skipped or (on an exception inside save) errors. -/
def processArticle (st : Stats) (t : ArticleOutcome) : Stats :=
  match t with
  | .scrapeRaises => { st with errors := st.errors + 1 }
  | .scrapeNone => { st with skipped := st.skipped + 1 }
  | .scrapeOk save =>
    match save with
    | .saved => { st with scraped := st.scraped + 1, saved := st.saved + 1 }
    | .notSaved => { st with scraped := st.scraped + 1, skipped := st.skipped + 1 }
    | .raises => { st with scraped := st.scraped + 1, errors := st.errors + 1 }

/-- run_scraping_job: found is the number of discovered links, and every
link's task updates the counters with its outcome. -/
def runScrapingJobStats (tasks : List ArticleOutcome) : Stats :=
  tasks.foldl processArticle ⟨tasks.length, 0, 0, 0, 0⟩

/-- A task skipped before scraping (scrape_article returned None). -/
def isSkipPre : ArticleOutcome → Bool
  | .scrapeNone => true
  | _ => false

/-- A task scraped successfully. -/
def isScraped : ArticleOutcome → Bool
  | .scrapeOk _ => true
  | _ => false

/-- A task scraped and persisted as a new row. -/
def isSavedNew : ArticleOutcome → Bool
  | .scrapeOk .saved => true
  | _ => false

/-- A task scraped but skipped at persistence (duplicate/invalid). -/
def isSkipPost : ArticleOutcome → Bool
  | .scrapeOk .notSaved => true
  | _ => false

/-- A task that errored before extraction succeeded. -/
def isErrPre : ArticleOutcome → Bool
  | .scrapeRaises => true
  | _ => false

/-- A task scraped whose save then raised. -/
def isErrPost : ArticleOutcome → Bool
  | .scrapeOk .raises => true
  | _ => false

/-- Count of pre-scrape skips in the input. -/
def skippedPre (tasks : List ArticleOutcome) : Nat := tasks.countP isSkipPre

/-- Count of post-scrape skips in the input. -/
def skippedPost (tasks : List ArticleOutcome) : Nat := tasks.countP isSkipPost

/-- Count of successful scrapes in the input. -/
def scrapedCnt (tasks : List ArticleOutcome) : Nat := tasks.countP isScraped

/-- Count of newly persisted articles in the input. -/
def savedCnt (tasks : List ArticleOutcome) : Nat := tasks.countP isSavedNew

/-- Count of pre-scrape errors in the input. -/
def errorsPre (tasks : List ArticleOutcome) : Nat := tasks.countP isErrPre

/-- Count of post-scrape errors in the input. -/
def errorsPost (tasks : List ArticleOutcome) : Nat := tasks.countP isErrPost

/-! ## Concurrency admission gate (run_scraping_job's semaphore)

process_article wraps its whole body in async with semaphore, an
asyncio.Semaphore(max_concurrent): a task passes the gate only while
fewer than k tasks hold a permit.  The possible interleavings are a
step relation on per-task phases; acquire is enabled only below the
bound, release ends a task. -/

/-- Phase of one article task relative to the admission gate. -/
inductive TaskPhase
  | pending
  | active
  | done
deriving DecidableEq, Repr

/-- Whether a task currently holds a semaphore permit. -/
def isActive : TaskPhase → Bool
  | .active => true
  | _ => false

/-- Number of tasks simultaneously past the admission gate. -/
def activeCount (ts : List TaskPhase) : Nat := ts.countP isActive

/-- One scheduler step of the pool: a pending task may pass the gate only
while fewer than k permits are taken (asyncio.Semaphore.acquire), and an
active task may finish, releasing its permit. -/
inductive PoolStep (k : Nat) : List TaskPhase → List TaskPhase → Prop
  | acquire (l r : List TaskPhase)
      (hlt : activeCount (l ++ TaskPhase.pending :: r) < k) :
      PoolStep k (l ++ TaskPhase.pending :: r) (l ++ TaskPhase.active :: r)
  | release (l r : List TaskPhase) :
      PoolStep k (l ++ TaskPhase.active :: r) (l ++ TaskPhase.done :: r)

/-- States reachable by the pool on n article tasks with limit k,
starting from all tasks created pending by asyncio.gather. -/
inductive PoolReachable (k n : Nat) : List TaskPhase → Prop
  | init : PoolReachable k n (List.replicate n TaskPhase.pending)
  | step {s s' : List TaskPhase} :
      PoolReachable k n s → PoolStep k s s' → PoolReachable k n s'

/-! ## Listing publish-date parsing (FTScraper._parse_publish_date)

datetime.strptime with the fixed format string of the source, modelled
field by field: full month name and am/pm are matched case-insensitively,
the numeric directives accept the digit counts and value ranges of the
CPython strptime regexes, and the datetime constructor's calendar
validation (day vs month length, year at least 1) is applied. -/

/-- Character code, lowercased over the ASCII letters (strptime matches
month names and am/pm case-insensitively). -/
def lowerCode (ch : Char) : Nat :=
  if 65 ≤ ch.toNat ∧ ch.toNat ≤ 90 then ch.toNat + 32 else ch.toNat

/-- Lowercased character codes of a token. -/
def lowerCodes (cs : List Char) : List Nat := cs.map lowerCode

/-- Splitting a character list at every occurrence of sep, keeping empty
pieces, as String.split does. -/
def splitOn (sep : Char) : List Char → List (List Char)
  | [] => [[]]
  | ch :: rest =>
    if ch = sep then [] :: splitOn sep rest
    else
      match splitOn sep rest with
      | [] => [[ch]]
      | t :: ts => (ch :: t) :: ts

/-- Whether the first character is a space. -/
def startsWithSpace : List Char → Bool
  | [] => false
  | ch :: _ => ch = ' '

/-- An ASCII decimal digit. -/
def isDigitChar (ch : Char) : Bool :=
  decide (48 ≤ ch.toNat ∧ ch.toNat ≤ 57)

/-- Numeric value of a digit run. -/
def digitsVal (cs : List Char) : Nat :=
  cs.foldl (fun acc ch => acc * 10 + (ch.toNat - 48)) 0

/-- A run of minLen to maxLen digits, as a number (the digit-count
bounds of the CPython strptime regexes). -/
def parseDigits (minLen maxLen : Nat) (cs : List Char) : Option Nat :=
  if minLen ≤ cs.length ∧ cs.length ≤ maxLen ∧ cs.all isDigitChar then
    some (digitsVal cs)
  else none

/-- The twelve full month names matched by the %B directive. -/
def monthNames : List String :=
  ["january", "february", "march", "april", "may", "june",
   "july", "august", "september", "october", "november", "december"]

/-- %B: a full month name, case-insensitive, giving 1..12. -/
def parseMonth (cs : List Char) : Option Nat :=
  (monthNames.findIdx? (fun m => lowerCodes m.data == lowerCodes cs)).map
    (fun i => i + 1)

/-- %p: am or pm, case-insensitive; true means pm. -/
def parseAmPm (cs : List Char) : Option Bool :=
  if lowerCodes cs == lowerCodes "am".data then some false
  else if lowerCodes cs == lowerCodes "pm".data then some true
  else none

/-- Gregorian leap-year rule used by datetime's calendar validation. -/
def isLeapYear (y : Nat) : Bool :=
  (y % 4 == 0 && !(y % 100 == 0)) || y % 400 == 0

/-- Length of a month, for datetime's calendar validation. -/
def daysInMonth (y m : Nat) : Nat :=
  if m = 2 then (if isLeapYear y then 29 else 28)
  else if m = 4 ∨ m = 6 ∨ m = 9 ∨ m = 11 then 30
  else 31

/-- datetime.strptime(s, the format with month name, day, year, 12-hour
time and am/pm): tokens separated by whitespace, the time split by a
colon, each directive validated, and the 12-hour value folded with am/pm
into a 24-hour value.  none models ValueError. -/
def strptimeFT (s : String) : Option TM :=
  if startsWithSpace s.data || startsWithSpace s.data.reverse then none
  else
    match (splitOn ' ' s.data).filter (fun t => !t.isEmpty) with
    | [bs, ds, ys, tms, ps] =>
      match parseMonth bs, parseDigits 1 2 ds, parseDigits 4 4 ys with
      | some month, some day, some year =>
        match splitOn ':' tms with
        | [hs, ms] =>
          match parseDigits 1 2 hs, parseDigits 1 2 ms, parseAmPm ps with
          | some hr12, some minute, some pm =>
            if 1 ≤ day ∧ day ≤ daysInMonth year month ∧ 1 ≤ hr12 ∧ hr12 ≤ 12 ∧
                minute ≤ 59 ∧ 1 ≤ year then
              some ⟨year, month, day, hr12 % 12 + (if pm then 12 else 0), minute⟩
            else none
          | _, _, _ => none
        | _ => none
      | _, _, _ => none
    | _ => none

/-- FTScraper._parse_publish_date: strptime with the fixed format, the
result made aware by replace(tzinfo=utc); a ValueError falls back to the
aware current time. -/
def parsePublishDate (c : Clock) (s : String) : CalDateTime :=
  match strptimeFT s with
  | some t => ⟨t, some TZ.utc⟩
  | none => datetimeNowUtc c

/-! ## Teaser extraction (FTScraper._extract_article_data) -/

/-- The base URL of the scraper (FTScraper.__init__). -/
def baseUrl : String := "https://www.ft.com"

/-- urllib.parse.urljoin restricted to the shapes the site produces: an
absolute href is kept, a site-relative href is resolved against the
host-only base. -/
def urljoin (base rel : String) : String :=
  if ("http://".data).isPrefixOf rel.data ∨ ("https://".data).isPrefixOf rel.data
  then rel
  else base ++ rel

/-- One li element of the listing, reduced to the queries
_extract_article_data performs on it: the premium label, the heading
link (text and href), the tag text, the standfirst text, and the title
attribute of the time element. -/
structure RawItem where
  premium : Bool
  heading : Option (String × String)
  tagText : Option String
  standfirstText : Option String
  timeTitle : Option String
deriving DecidableEq, Repr

/-- The dict _extract_article_data returns for an accepted item. -/
structure TeaserRecord where
  url : String
  title : String
  content : String
  author : String
  published_at : CalDateTime
  scraped_at : CalDateTime
deriving DecidableEq, Repr

/-- The published_at computation of _extract_article_data: the time
element's title attribute is parsed when present and non-empty (an empty
attribute is falsy in the source's conditional), else now. -/
def teaserPublishedAt (c : Clock) (it : RawItem) : CalDateTime :=
  match it.timeTitle with
  | some ds => if ds = "" then datetimeNowUtc c else parsePublishDate c ds
  | none => datetimeNowUtc c

/-- The record built by _extract_article_data for a non-premium item with
a heading link. -/
def teaserOf (c : Clock) (it : RawItem) (title relUrl : String) : TeaserRecord :=
  ⟨urljoin baseUrl relUrl, title, it.standfirstText.getD "",
   it.tagText.getD "Unknown", teaserPublishedAt c it, datetimeNowUtc c⟩

/-- FTScraper._extract_article_data: skip premium items and items without
a heading link; apply the optional per-item time filter to published_at;
otherwise return the record. -/
def extractArticleData (c : Clock) (it : RawItem)
    (tf : Option (CalDateTime → Bool)) : Option TeaserRecord :=
  if it.premium then none
  else
    match it.heading with
    | none => none
    | some (title, relUrl) =>
      match tf with
      | some f =>
        if f (teaserPublishedAt c it) then some (teaserOf c it title relUrl)
        else none
      | none => some (teaserOf c it title relUrl)

/-! ## Pagination walker (FTScraper.scrape_articles_with_pagination)

scrape_single_page is deterministic here: a page is the list of li items
its fetched HTML contains (a page whose teaser list is missing, or whose
fetch fails all retries, is a page with no items), and extraction with
the per-item filter is a filterMap over them. -/

/-- FTScraper.scrape_single_page: extract every item of the page,
dropping premium items, heading-less items and filter failures. -/
def scrapeSinglePage (c : Clock) (pages : Nat → List RawItem) (pageNum : Nat)
    (tf : Option (CalDateTime → Bool)) : List TeaserRecord :=
  (pages pageNum).filterMap (fun it => extractArticleData c it tf)

/-- The window-boundary check of the walker: with an active filter, look
at the last element of the page's already-filtered result and stop when
it fails the filter. -/
def stopByTime (tf : Option (CalDateTime → Bool))
    (pa : List TeaserRecord) : Bool :=
  match tf, pa.getLast? with
  | some f, some last => !(f last.published_at)
  | _, _ => false

/-- The for-loop of scrape_articles_with_pagination: fuel is the number
of page numbers left in range(page_num, max_pages + 1); an empty page
bumps the consecutive-empty counter and stops at 3; a non-empty page
resets the counter, appends its items and applies the window-boundary
check.  Returns the collected items and the list of fetched pages. -/
def walkAux (c : Clock) (pages : Nat → List RawItem)
    (tf : Option (CalDateTime → Bool)) :
    Nat → Nat → Nat → List TeaserRecord × List Nat
  | 0, _, _ => ([], [])
  | fuel + 1, pageNum, noCount =>
    if scrapeSinglePage c pages pageNum tf = [] then
      if noCount + 1 ≥ 3 then ([], [pageNum])
      else
        ((walkAux c pages tf fuel (pageNum + 1) (noCount + 1)).1,
         pageNum :: (walkAux c pages tf fuel (pageNum + 1) (noCount + 1)).2)
    else
      if stopByTime tf (scrapeSinglePage c pages pageNum tf) then
        (scrapeSinglePage c pages pageNum tf, [pageNum])
      else
        (scrapeSinglePage c pages pageNum tf ++
           (walkAux c pages tf fuel (pageNum + 1) 0).1,
         pageNum :: (walkAux c pages tf fuel (pageNum + 1) 0).2)

/-- FTScraper.scrape_articles_with_pagination: walk pages 1..max_pages. -/
def scrapeArticlesWithPagination (c : Clock) (pages : Nat → List RawItem)
    (maxPages : Nat) (tf : Option (CalDateTime → Bool)) :
    List TeaserRecord × List Nat :=
  walkAux c pages tf maxPages 1 0

/-! ### Concrete instances used by the claim witnesses -/

/-- A fixed clock reading. -/
def demoClock : Clock := ⟨⟨2024, 1, 15, 12, 0⟩⟩

/-- A plain non-premium listing item without a date attribute. -/
def demoItem : RawItem := ⟨false, some ("Article 1", "/content/test-1"), none, none, none⟩

/-- Pages 1..3 hold one plain item each; pages 4 onwards are empty. -/
def demoPages (n : Nat) : List RawItem :=
  if n ≤ 3 then [demoItem] else []

/-- A one-hour-style window rendered on calendar years: recent means
published in 2024 or later. -/
def demoFilter (d : CalDateTime) : Bool :=
  decide (2024 ≤ d.tm.year)

/-- An item whose parsed date (year 2000) fails demoFilter. -/
def demoOldItem : RawItem :=
  ⟨false, some ("Old Article", "/content/old"), none, none,
   some "January 15 2000 10:30 am"⟩

/-- An item whose parsed date (year 2024) passes demoFilter. -/
def demoNewItem : RawItem :=
  ⟨false, some ("New Article", "/content/new"), none, none,
   some "January 15 2024 10:30 am"⟩

/-- Every page lists a passing item first and a failing item last. -/
def demoBoundaryPages (_ : Nat) : List RawItem :=
  [demoNewItem, demoOldItem]

end ScraperNews

namespace ScraperNews

/-- Claim C10: whenever the article-count query inside is_first_run raises,
is_first_run returns True, so run_scraping at that moment selects the bulk
configuration (30-day window, max_pages = 100). -/
theorem is_first_run_query_error_selects_bulk (now : Int) (count : Nat) :
    isFirstRun count false = true ∧
    runScrapingPlan now count false =
      ⟨fun d => isArticleWithinDays now d 30, 100⟩ := by
  exact ⟨rfl, rfl⟩

/-- Claim C6: with a successful count query, an empty store selects the
bulk configuration (30-day window, up to 100 pages) and a non-empty store
selects the incremental configuration (1-hour window, at most 5 pages). -/
theorem run_scraping_mode_selection (now : Int) (count : Nat) :
    (count = 0 → runScrapingPlan now count true =
      ⟨fun d => isArticleWithinDays now d 30, 100⟩) ∧
    (count ≠ 0 → runScrapingPlan now count true =
      ⟨fun d => isArticleRecent now d 1, 5⟩) := by
  constructor
  · intro h
    subst h
    rfl
  · intro h
    cases count with
    | zero => exact absurd rfl h
    | succ n => rfl

/-- Witness for C6 at now = 0 with store counts 0 and 3. -/
theorem run_scraping_mode_selection_witness :
    runScrapingPlan 0 0 true = ⟨fun d => isArticleWithinDays 0 d 30, 100⟩ ∧
    runScrapingPlan 0 3 true = ⟨fun d => isArticleRecent 0 d 1, 5⟩ := by
  exact ⟨(run_scraping_mode_selection 0 0).1 rfl,
         (run_scraping_mode_selection 0 3).2 (by decide)⟩

/-- Claim C7: once run_scraping_job has executed at least once in the
process, every later run selects the hourly (incremental) type with
days_back = 1; the selection reads only the in-process flag (runTypeOf
takes no store argument), so store contents cannot re-trigger bulk mode. -/
theorem scheduler_never_bulk_after_first_run (s0 : SchedulerState) (n : Nat)
    (h : 1 ≤ n) :
    runTypeOf (stateAfterRuns s0 n) = RunType.hourly ∧
    daysBackOf (stateAfterRuns s0 n) none = 1 := by
  cases n with
  | zero => exact absurd h (by decide)
  | succ m => exact ⟨rfl, rfl⟩

/-- Witness for C7: the run after the very first execution is hourly. -/
theorem scheduler_never_bulk_after_first_run_witness :
    runTypeOf (stateAfterRuns (initialSchedulerState 30) 1) = RunType.hourly ∧
    daysBackOf (stateAfterRuns (initialSchedulerState 30) 1) none = 1 :=
  scheduler_never_bulk_after_first_run (initialSchedulerState 30) 1 (by decide)

/-! ### Lemmas about save_articles_to_db -/

theorem urlExists_iff (db : List ArticleRow) (u : String) :
    urlExists db u = true ↔ u ∈ db.map (fun r => r.url) := by
  unfold urlExists
  rw [List.any_eq_true]
  constructor
  · rintro ⟨r, hr, he⟩
    exact List.mem_map.mpr ⟨r, hr, beq_iff_eq.mp he⟩
  · intro h
    obtain ⟨r, hr, he⟩ := List.mem_map.mp h
    exact ⟨r, hr, beq_iff_eq.mpr he⟩

theorem saveGo_cons_none (a : ArticleData) (rest : List ArticleData)
    (db : List ArticleRow) (n : Nat) (h : rowOf a = none) :
    saveGo db (a :: rest) n = saveGo db rest n := by
  simp only [saveGo, h]

theorem saveGo_cons_dup (a : ArticleData) (rest : List ArticleData)
    (db : List ArticleRow) (n : Nat) (row : ArticleRow)
    (h : rowOf a = some row) (hd : urlExists db row.url = true) :
    saveGo db (a :: rest) n = saveGo db rest n := by
  simp only [saveGo, h, hd, if_true]

theorem saveGo_cons_new (a : ArticleData) (rest : List ArticleData)
    (db : List ArticleRow) (n : Nat) (row : ArticleRow)
    (h : rowOf a = some row) (hd : urlExists db row.url = false) :
    saveGo db (a :: rest) n = saveGo (db ++ [row]) rest (n + 1) := by
  simp only [saveGo, h, hd, Bool.false_eq_true, if_false]

theorem saveGo_prefix (as : List ArticleData) :
    ∀ db n, ∃ ext, (saveGo db as n).1 = db ++ ext := by
  induction as with
  | nil => intro db n; exact ⟨[], by simp [saveGo]⟩
  | cons a rest ih =>
    intro db n
    cases hrow : rowOf a with
    | none =>
      rw [saveGo_cons_none a rest db n hrow]
      exact ih db n
    | some row =>
      by_cases hdup : urlExists db row.url
      · rw [saveGo_cons_dup a rest db n row hrow hdup]
        exact ih db n
      · rw [saveGo_cons_new a rest db n row hrow (Bool.eq_false_iff.mpr hdup)]
        obtain ⟨ext, hext⟩ := ih (db ++ [row]) (n + 1)
        exact ⟨row :: ext, by simpa using hext⟩

theorem saveGo_url_mono (as : List ArticleData) (db : List ArticleRow)
    (n : Nat) (u : String) (h : u ∈ db.map (fun r => r.url)) :
    u ∈ (saveGo db as n).1.map (fun r => r.url) := by
  obtain ⟨ext, hext⟩ := saveGo_prefix as db n
  rw [hext, List.map_append]
  exact List.mem_append_left _ h

theorem saveGo_processed_mem (as : List ArticleData) :
    ∀ db n a row, a ∈ as → rowOf a = some row →
      row.url ∈ (saveGo db as n).1.map (fun r => r.url) := by
  induction as with
  | nil => intro db n a row ha _; cases ha
  | cons b rest ih =>
    intro db n a row ha hrow
    cases hb : rowOf b with
    | none =>
      rw [saveGo_cons_none b rest db n hb]
      rcases List.mem_cons.mp ha with h | h
      · subst h; rw [hb] at hrow; cases hrow
      · exact ih db n a row h hrow
    | some rb =>
      by_cases hdup : urlExists db rb.url
      · rw [saveGo_cons_dup b rest db n rb hb hdup]
        rcases List.mem_cons.mp ha with h | h
        · subst h
          rw [hb] at hrow
          cases hrow
          exact saveGo_url_mono rest db n row.url ((urlExists_iff db row.url).mp hdup)
        · exact ih db n a row h hrow
      · rw [saveGo_cons_new b rest db n rb hb (Bool.eq_false_iff.mpr hdup)]
        rcases List.mem_cons.mp ha with h | h
        · subst h
          rw [hb] at hrow
          cases hrow
          refine saveGo_url_mono rest (db ++ [row]) (n + 1) row.url ?_
          simp
        · exact ih (db ++ [rb]) (n + 1) a row h hrow

theorem saveGo_all_seen (as : List ArticleData) :
    ∀ db n,
      (∀ a ∈ as, ∀ row, rowOf a = some row →
        row.url ∈ db.map (fun r => r.url)) →
      saveGo db as n = (db, n) := by
  induction as with
  | nil => intro db n _; rfl
  | cons a rest ih =>
    intro db n hall
    cases hrow : rowOf a with
    | none =>
      rw [saveGo_cons_none a rest db n hrow]
      exact ih db n (fun b hb => hall b (List.mem_cons_of_mem a hb))
    | some row =>
      have hmem : row.url ∈ db.map (fun r => r.url) :=
        hall a (List.mem_cons_self a rest) row hrow
      have hdup : urlExists db row.url = true := (urlExists_iff db row.url).mpr hmem
      rw [saveGo_cons_dup a rest db n row hrow hdup]
      exact ih db n (fun b hb => hall b (List.mem_cons_of_mem a hb))

theorem saveGo_nodup (as : List ArticleData) :
    ∀ db n, (db.map (fun r => r.url)).Nodup →
      ((saveGo db as n).1.map (fun r => r.url)).Nodup := by
  induction as with
  | nil => intro db n h; exact h
  | cons a rest ih =>
    intro db n h
    cases hrow : rowOf a with
    | none =>
      rw [saveGo_cons_none a rest db n hrow]
      exact ih db n h
    | some row =>
      by_cases hdup : urlExists db row.url
      · rw [saveGo_cons_dup a rest db n row hrow hdup]
        exact ih db n h
      · rw [saveGo_cons_new a rest db n row hrow (Bool.eq_false_iff.mpr hdup)]
        refine ih (db ++ [row]) (n + 1) ?_
        have hfresh : row.url ∉ db.map (fun r => r.url) := by
          intro hmem
          exact hdup ((urlExists_iff db row.url).mpr hmem)
        rw [List.map_append]
        refine List.Nodup.append h (List.nodup_singleton _) ?_
        intro x hx hx1
        simp only [List.map_cons, List.map_nil, List.mem_singleton] at hx1
        subst hx1
        exact hfresh hx

/-- Claim C1: a record whose url is already stored degrades to a no-op
for that record without aborting the rest of the batch; running
save_articles_to_db a second time on the same input saves 0 and leaves
the table unchanged, and stored urls stay pairwise distinct. -/
theorem save_articles_dedup_idempotent (db : List ArticleRow)
    (as : List ArticleData) (a : ArticleData) (rest : List ArticleData)
    (row : ArticleRow) (hnd : (db.map (fun r => r.url)).Nodup)
    (hrow : rowOf a = some row)
    (hmem : row.url ∈ db.map (fun r => r.url)) :
    saveArticlesToDb db (a :: rest) = saveArticlesToDb db rest ∧
    saveArticlesToDb (saveArticlesToDb db as).1 as =
      ((saveArticlesToDb db as).1, 0) ∧
    ((saveArticlesToDb db as).1.map (fun r => r.url)).Nodup := by
  refine ⟨?_, ?_, ?_⟩
  · exact saveGo_cons_dup a rest db 0 row hrow ((urlExists_iff db row.url).mpr hmem)
  · exact saveGo_all_seen as (saveArticlesToDb db as).1 0
      (fun b hb rb hrb => saveGo_processed_mem as db 0 b rb hb hrb)
  · exact saveGo_nodup as db 0 hnd

/-- Witness for C1 on a store holding one row and a batch of two records,
the first of which duplicates the stored url. -/
theorem save_articles_dedup_idempotent_witness :
    saveArticlesToDb [⟨"https://www.ft.com/content/a", "T1", "C1", none, sampleDT, sampleDT⟩]
        (⟨some "https://www.ft.com/content/a", some "T1 again", some "C1 again", none, sampleDT, sampleDT⟩ ::
          [⟨some "https://www.ft.com/content/b", some "T2", some "C2", none, sampleDT, sampleDT⟩]) =
      saveArticlesToDb [⟨"https://www.ft.com/content/a", "T1", "C1", none, sampleDT, sampleDT⟩]
        [⟨some "https://www.ft.com/content/b", some "T2", some "C2", none, sampleDT, sampleDT⟩] ∧
    saveArticlesToDb
        (saveArticlesToDb [⟨"https://www.ft.com/content/a", "T1", "C1", none, sampleDT, sampleDT⟩]
          (⟨some "https://www.ft.com/content/a", some "T1 again", some "C1 again", none, sampleDT, sampleDT⟩ ::
            [⟨some "https://www.ft.com/content/b", some "T2", some "C2", none, sampleDT, sampleDT⟩])).1
        (⟨some "https://www.ft.com/content/a", some "T1 again", some "C1 again", none, sampleDT, sampleDT⟩ ::
          [⟨some "https://www.ft.com/content/b", some "T2", some "C2", none, sampleDT, sampleDT⟩]) =
      ((saveArticlesToDb [⟨"https://www.ft.com/content/a", "T1", "C1", none, sampleDT, sampleDT⟩]
          (⟨some "https://www.ft.com/content/a", some "T1 again", some "C1 again", none, sampleDT, sampleDT⟩ ::
            [⟨some "https://www.ft.com/content/b", some "T2", some "C2", none, sampleDT, sampleDT⟩])).1, 0) ∧
    (((saveArticlesToDb [⟨"https://www.ft.com/content/a", "T1", "C1", none, sampleDT, sampleDT⟩]
        (⟨some "https://www.ft.com/content/a", some "T1 again", some "C1 again", none, sampleDT, sampleDT⟩ ::
          [⟨some "https://www.ft.com/content/b", some "T2", some "C2", none, sampleDT, sampleDT⟩])).1).map
        (fun r => r.url)).Nodup :=
  save_articles_dedup_idempotent
    [⟨"https://www.ft.com/content/a", "T1", "C1", none, sampleDT, sampleDT⟩]
    (⟨some "https://www.ft.com/content/a", some "T1 again", some "C1 again", none, sampleDT, sampleDT⟩ ::
      [⟨some "https://www.ft.com/content/b", some "T2", some "C2", none, sampleDT, sampleDT⟩])
    ⟨some "https://www.ft.com/content/a", some "T1 again", some "C1 again", none, sampleDT, sampleDT⟩
    [⟨some "https://www.ft.com/content/b", some "T2", some "C2", none, sampleDT, sampleDT⟩]
    ⟨"https://www.ft.com/content/a", "T1 again", "C1 again", none, sampleDT, sampleDT⟩
    (by simp) (by rfl) (by simp)

/-- Counterexample to claim C2: a record whose title and content keys are
present but hold empty strings is not rejected — save_articles_to_db
inserts the row and counts it as saved. -/
theorem save_articles_empty_fields_inserted_cex :
    saveArticlesToDb []
        [⟨some "https://www.ft.com/content/e", some "", some "", none, sampleDT, sampleDT⟩] =
      ([⟨"https://www.ft.com/content/e", "", "", none, sampleDT, sampleDT⟩], 1) := by
  rfl

/-- Claim C2 as amended: the validation in save_articles_to_db tests key
presence only — a record missing one of the url/title/content keys is
skipped before any insert attempt (the batch continues as if it were
absent), while a record whose required keys are all present is given an
insert attempt even when title or content is the empty string. -/
theorem save_validation_is_key_presence (db : List ArticleRow)
    (a b : ArticleData) (rest : List ArticleData) (row : ArticleRow)
    (hrow : rowOf a = some row) (hnew : urlExists db row.url = false)
    (hb : requiredKeysPresent b = false) :
    rowOf b = none ∧
    saveArticlesToDb db (b :: a :: rest) = saveGo (db ++ [row]) rest 1 := by
  have hbnone : rowOf b = none := by
    unfold rowOf
    unfold requiredKeysPresent at hb
    match hu : b.url, ht : b.title, hc : b.content with
    | some u, some t, some c => rw [hu, ht, hc] at hb; simp at hb
    | none, _, _ => rfl
    | some _, none, _ => rfl
    | some _, some _, none => rfl
  refine ⟨hbnone, ?_⟩
  calc saveArticlesToDb db (b :: a :: rest) = saveGo db (b :: a :: rest) 0 := rfl
    _ = saveGo db (a :: rest) 0 := saveGo_cons_none b (a :: rest) db 0 hbnone
    _ = saveGo (db ++ [row]) rest 1 := saveGo_cons_new a rest db 0 row hrow hnew

/-- Witness for the amended C2: a record missing the url key is skipped,
and a record with empty title and content is inserted right after it. -/
theorem save_validation_is_key_presence_witness :
    rowOf ⟨none, some "No URL", some "Content without URL", none, sampleDT, sampleDT⟩ = none ∧
    saveArticlesToDb []
        (⟨none, some "No URL", some "Content without URL", none, sampleDT, sampleDT⟩ ::
          ⟨some "https://www.ft.com/content/e", some "", some "", none, sampleDT, sampleDT⟩ :: []) =
      saveGo ([] ++ [⟨"https://www.ft.com/content/e", "", "", none, sampleDT, sampleDT⟩]) [] 1 :=
  save_validation_is_key_presence []
    ⟨some "https://www.ft.com/content/e", some "", some "", none, sampleDT, sampleDT⟩
    ⟨none, some "No URL", some "Content without URL", none, sampleDT, sampleDT⟩
    [] ⟨"https://www.ft.com/content/e", "", "", none, sampleDT, sampleDT⟩
    (by rfl) (by rfl) (by rfl)

/-! ### Lemmas about run_scraping_job statistics -/

theorem foldl_processArticle (tasks : List ArticleOutcome) :
    ∀ st : Stats, tasks.foldl processArticle st =
      ⟨st.found, st.scraped + scrapedCnt tasks, st.saved + savedCnt tasks,
       st.skipped + skippedPre tasks + skippedPost tasks,
       st.errors + errorsPre tasks + errorsPost tasks⟩ := by
  induction tasks with
  | nil =>
    intro st
    cases st
    simp [scrapedCnt, savedCnt, skippedPre, skippedPost, errorsPre, errorsPost]
  | cons t rest ih =>
    intro st
    rw [List.foldl_cons, ih (processArticle st t)]
    cases t with
    | scrapeNone =>
      simp [processArticle, scrapedCnt, savedCnt, skippedPre, skippedPost,
        errorsPre, errorsPost, List.countP_cons, isSkipPre, isSkipPost,
        isScraped, isSavedNew, isErrPre, isErrPost, Stats.mk.injEq]
      omega
    | scrapeRaises =>
      simp [processArticle, scrapedCnt, savedCnt, skippedPre, skippedPost,
        errorsPre, errorsPost, List.countP_cons, isSkipPre, isSkipPost,
        isScraped, isSavedNew, isErrPre, isErrPost, Stats.mk.injEq]
      omega
    | scrapeOk s =>
      cases s <;>
        · simp [processArticle, scrapedCnt, savedCnt, skippedPre, skippedPost,
            errorsPre, errorsPost, List.countP_cons, isSkipPre, isSkipPost,
            isScraped, isSavedNew, isErrPre, isErrPost, Stats.mk.injEq]
          omega

theorem outcome_partition_found (tasks : List ArticleOutcome) :
    tasks.length = scrapedCnt tasks + skippedPre tasks + errorsPre tasks := by
  induction tasks with
  | nil => rfl
  | cons t rest ih =>
    cases t <;>
      · simp [scrapedCnt, skippedPre, errorsPre, List.countP_cons,
          isScraped, isSkipPre, isErrPre] at *
        omega

theorem outcome_partition_scraped (tasks : List ArticleOutcome) :
    scrapedCnt tasks = savedCnt tasks + skippedPost tasks + errorsPost tasks := by
  induction tasks with
  | nil => rfl
  | cons t rest ih =>
    cases t with
    | scrapeOk s =>
      cases s <;>
        · simp [scrapedCnt, savedCnt, skippedPost, errorsPost, List.countP_cons,
            isScraped, isSavedNew, isSkipPost, isErrPost] at *
          omega
    | scrapeNone =>
      simp [scrapedCnt, savedCnt, skippedPost, errorsPost, List.countP_cons,
        isScraped, isSavedNew, isSkipPost, isErrPost] at *
      omega
    | scrapeRaises =>
      simp [scrapedCnt, savedCnt, skippedPost, errorsPost, List.countP_cons,
        isScraped, isSavedNew, isSkipPost, isErrPost] at *
      omega

/-- Counterexample to claim C5: one pending article whose scrape raises
is counted in found and in errors but neither scraped nor skipped, so
scraped plus pre-scrape skips falls short of found. -/
theorem counter_consistency_pre_scrape_error_cex :
    (runScrapingJobStats [ArticleOutcome.scrapeRaises]).scraped +
        skippedPre [ArticleOutcome.scrapeRaises] ≠
      (runScrapingJobStats [ArticleOutcome.scrapeRaises]).found := by
  decide

/-- Claim C5 as amended: found = scraped + skipped(pre) + errors(pre),
every scraped item resolves to exactly one of saved, skipped(post) or
errors(post), and the claim's original equations hold exactly when no
error occurs before scraping succeeds. -/
theorem run_scraping_job_counter_consistency (tasks : List ArticleOutcome) :
    (runScrapingJobStats tasks).found =
      (runScrapingJobStats tasks).scraped + skippedPre tasks + errorsPre tasks ∧
    (runScrapingJobStats tasks).scraped =
      (runScrapingJobStats tasks).saved + skippedPost tasks + errorsPost tasks ∧
    (runScrapingJobStats tasks).skipped = skippedPre tasks + skippedPost tasks ∧
    (runScrapingJobStats tasks).errors = errorsPre tasks + errorsPost tasks ∧
    (errorsPre tasks = 0 →
      (runScrapingJobStats tasks).scraped + skippedPre tasks =
          (runScrapingJobStats tasks).found ∧
      (runScrapingJobStats tasks).saved + skippedPost tasks +
          (runScrapingJobStats tasks).errors = (runScrapingJobStats tasks).scraped) := by
  have hf := foldl_processArticle tasks ⟨tasks.length, 0, 0, 0, 0⟩
  have hfound := outcome_partition_found tasks
  have hscr := outcome_partition_scraped tasks
  rw [runScrapingJobStats, hf]
  dsimp only
  refine ⟨by omega, by omega, by omega, by omega, ?_⟩
  intro h0
  exact ⟨by omega, by omega⟩

/-- Witness for the amended C5 on three tasks with no pre-scrape error:
one saved, one skipped before scraping, one duplicate-skipped after. -/
theorem run_scraping_job_counter_consistency_witness :
    errorsPre [ArticleOutcome.scrapeOk SaveOutcome.saved, ArticleOutcome.scrapeNone,
        ArticleOutcome.scrapeOk SaveOutcome.notSaved] = 0 ∧
    (runScrapingJobStats [ArticleOutcome.scrapeOk SaveOutcome.saved, ArticleOutcome.scrapeNone,
        ArticleOutcome.scrapeOk SaveOutcome.notSaved]).scraped +
      skippedPre [ArticleOutcome.scrapeOk SaveOutcome.saved, ArticleOutcome.scrapeNone,
        ArticleOutcome.scrapeOk SaveOutcome.notSaved] =
      (runScrapingJobStats [ArticleOutcome.scrapeOk SaveOutcome.saved, ArticleOutcome.scrapeNone,
        ArticleOutcome.scrapeOk SaveOutcome.notSaved]).found ∧
    (runScrapingJobStats [ArticleOutcome.scrapeOk SaveOutcome.saved, ArticleOutcome.scrapeNone,
        ArticleOutcome.scrapeOk SaveOutcome.notSaved]).saved +
      skippedPost [ArticleOutcome.scrapeOk SaveOutcome.saved, ArticleOutcome.scrapeNone,
        ArticleOutcome.scrapeOk SaveOutcome.notSaved] +
      (runScrapingJobStats [ArticleOutcome.scrapeOk SaveOutcome.saved, ArticleOutcome.scrapeNone,
        ArticleOutcome.scrapeOk SaveOutcome.notSaved]).errors =
      (runScrapingJobStats [ArticleOutcome.scrapeOk SaveOutcome.saved, ArticleOutcome.scrapeNone,
        ArticleOutcome.scrapeOk SaveOutcome.notSaved]).scraped := by
  refine ⟨by decide, ?_⟩
  exact (run_scraping_job_counter_consistency
    [ArticleOutcome.scrapeOk SaveOutcome.saved, ArticleOutcome.scrapeNone,
      ArticleOutcome.scrapeOk SaveOutcome.notSaved]).2.2.2.2 (by decide)

/-! ### The admission gate bound -/

theorem activeCount_replicate_pending (n : Nat) :
    activeCount (List.replicate n TaskPhase.pending) = 0 := by
  induction n with
  | zero => rfl
  | succ m ih =>
    unfold activeCount at ih ⊢
    simp [List.replicate_succ, List.countP_cons, isActive, ih]

/-- Claim C9: in every state the pool can reach — any interleaving of
acquisitions and releases of the asyncio.Semaphore created with limit k —
at most k article tasks are simultaneously past the admission gate,
whatever the number n of pending articles. -/
theorem pool_never_exceeds_limit (k n : Nat) (s : List TaskPhase)
    (h : PoolReachable k n s) : activeCount s ≤ k := by
  induction h with
  | init =>
    rw [activeCount_replicate_pending]
    exact Nat.zero_le k
  | step hr hstep ih =>
    cases hstep with
    | acquire l r hlt =>
      have hpre : activeCount (l ++ TaskPhase.pending :: r) =
          activeCount l + activeCount r := by
        simp [activeCount, List.countP_append, List.countP_cons, isActive]
      have hpost : activeCount (l ++ TaskPhase.active :: r) =
          activeCount l + activeCount r + 1 := by
        simp [activeCount, List.countP_append, List.countP_cons, isActive]
        omega
      rw [hpre] at hlt
      omega
    | release l r =>
      have hpre : activeCount (l ++ TaskPhase.active :: r) =
          activeCount l + activeCount r + 1 := by
        simp [activeCount, List.countP_append, List.countP_cons, isActive]
        omega
      have hpost : activeCount (l ++ TaskPhase.done :: r) =
          activeCount l + activeCount r := by
        simp [activeCount, List.countP_append, List.countP_cons, isActive]
      rw [hpre] at ih
      omega

/-! ### Date parsing and extraction lemmas -/

theorem parsePublishDate_tz (c : Clock) (s : String) :
    (parsePublishDate c s).tz = some TZ.utc := by
  unfold parsePublishDate
  cases h : strptimeFT s <;> simp [datetimeNowUtc]

theorem teaserPublishedAt_tz (c : Clock) (it : RawItem) :
    (teaserPublishedAt c it).tz = some TZ.utc := by
  unfold teaserPublishedAt
  cases h : it.timeTitle with
  | none => rfl
  | some ds =>
    by_cases hds : ds = ""
    · simp [hds, datetimeNowUtc]
    · simp [hds, parsePublishDate_tz]

theorem extract_premium (c : Clock) (it : RawItem)
    (tf : Option (CalDateTime → Bool)) (hp : it.premium = true) :
    extractArticleData c it tf = none := by
  unfold extractArticleData
  rw [if_pos hp]

theorem extract_no_heading (c : Clock) (it : RawItem)
    (tf : Option (CalDateTime → Bool)) (hp : it.premium = false)
    (hh : it.heading = none) :
    extractArticleData c it tf = none := by
  unfold extractArticleData
  rw [hp, hh]
  rfl

theorem extract_step_none (c : Clock) (it : RawItem) (title relUrl : String)
    (hp : it.premium = false) (hh : it.heading = some (title, relUrl)) :
    extractArticleData c it none = some (teaserOf c it title relUrl) := by
  unfold extractArticleData
  rw [hp, hh]
  rfl

theorem extract_step_some (c : Clock) (it : RawItem) (f : CalDateTime → Bool)
    (title relUrl : String)
    (hp : it.premium = false) (hh : it.heading = some (title, relUrl)) :
    extractArticleData c it (some f) =
      if f (teaserPublishedAt c it) then some (teaserOf c it title relUrl)
      else none := by
  unfold extractArticleData
  rw [hp, hh]
  rfl

theorem extract_eq_teaserOf (c : Clock) (it : RawItem)
    (tf : Option (CalDateTime → Bool)) (r : TeaserRecord)
    (h : extractArticleData c it tf = some r) :
    ∃ title relUrl, it.heading = some (title, relUrl) ∧
      r = teaserOf c it title relUrl := by
  cases hp : it.premium with
  | true => rw [extract_premium c it tf hp] at h; cases h
  | false =>
    cases hh : it.heading with
    | none => rw [extract_no_heading c it tf hp hh] at h; cases h
    | some p =>
      obtain ⟨title, relUrl⟩ := p
      cases tf with
      | none =>
        rw [extract_step_none c it title relUrl hp hh] at h
        injection h with h
        exact ⟨title, relUrl, rfl, h.symm⟩
      | some f =>
        rw [extract_step_some c it f title relUrl hp hh] at h
        by_cases hf : f (teaserPublishedAt c it) = true
        · rw [if_pos hf] at h
          injection h with h
          exact ⟨title, relUrl, rfl, h.symm⟩
        · rw [if_neg hf] at h; cases h

theorem extract_filter_pass (c : Clock) (it : RawItem) (f : CalDateTime → Bool)
    (r : TeaserRecord) (h : extractArticleData c it (some f) = some r) :
    f r.published_at = true := by
  cases hp : it.premium with
  | true => rw [extract_premium c it (some f) hp] at h; cases h
  | false =>
    cases hh : it.heading with
    | none => rw [extract_no_heading c it (some f) hp hh] at h; cases h
    | some p =>
      obtain ⟨title, relUrl⟩ := p
      rw [extract_step_some c it f title relUrl hp hh] at h
      by_cases hf : f (teaserPublishedAt c it) = true
      · rw [if_pos hf] at h
        injection h with h
        subst h
        exact hf
      · rw [if_neg hf] at h; cases h

/-- Claim C8: listing publish dates go through strptime with the fixed
month-name/12-hour format; a string that fails to parse does not fail
the item — published_at falls back to the aware current time — and every
published_at and scraped_at the extractor produces carries tzinfo utc. -/
theorem publish_date_format_fallback_and_utc (c : Clock) (s : String)
    (it : RawItem) (tf : Option (CalDateTime → Bool)) :
    (strptimeFT s = none → parsePublishDate c s = datetimeNowUtc c) ∧
    (∀ t, strptimeFT s = some t → parsePublishDate c s = ⟨t, some TZ.utc⟩) ∧
    (parsePublishDate c s).tz = some TZ.utc ∧
    (∀ r, extractArticleData c it tf = some r →
      r.published_at.tz = some TZ.utc ∧ r.scraped_at.tz = some TZ.utc) ∧
    (∀ title relUrl tagT standT,
      extractArticleData c ⟨false, some (title, relUrl), tagT, standT, some s⟩ none ≠
        none) := by
  refine ⟨?_, ?_, parsePublishDate_tz c s, ?_, ?_⟩
  · intro h
    unfold parsePublishDate
    rw [h]
  · intro t h
    unfold parsePublishDate
    rw [h]
  · intro r h
    obtain ⟨title, relUrl, _, hr⟩ := extract_eq_teaserOf c it tf r h
    subst hr
    exact ⟨teaserPublishedAt_tz c it, rfl⟩
  · intro title relUrl tagT standT h
    simp [extractArticleData] at h

/-- Witness for C8: a junk string falls back to now, the repo's sample
date string parses into the expected aware fields, and a parse failure
does not make the extractor drop the item. -/
theorem publish_date_format_fallback_and_utc_witness :
    parsePublishDate demoClock "invalid date string" = datetimeNowUtc demoClock ∧
    parsePublishDate demoClock "January 15 2024 10:30 am" =
      ⟨⟨2024, 1, 15, 10, 30⟩, some TZ.utc⟩ ∧
    extractArticleData demoClock
        ⟨false, some ("Old Article", "/content/old"), none, none,
          some "invalid date string"⟩ none ≠ none := by
  refine ⟨?_, ?_, ?_⟩
  · exact (publish_date_format_fallback_and_utc demoClock "invalid date string"
      demoItem none).1 (by decide)
  · exact (publish_date_format_fallback_and_utc demoClock "January 15 2024 10:30 am"
      demoItem none).2.1 ⟨2024, 1, 15, 10, 30⟩ (by decide)
  · exact (publish_date_format_fallback_and_utc demoClock "invalid date string"
      demoItem none).2.2.2.2 "Old Article" "/content/old" none none

/-- Witness for C9: with limit 3 and 10 pending articles, the state with
one task past the gate is reachable and satisfies the bound. -/
theorem pool_never_exceeds_limit_witness :
    PoolReachable 3 10 (TaskPhase.active :: List.replicate 9 TaskPhase.pending) ∧
    activeCount (TaskPhase.active :: List.replicate 9 TaskPhase.pending) ≤ 3 := by
  have h0 : PoolReachable 3 10 (List.replicate 10 TaskPhase.pending) :=
    PoolReachable.init
  have heq : List.replicate 10 TaskPhase.pending =
      ([] : List TaskPhase) ++ TaskPhase.pending :: List.replicate 9 TaskPhase.pending := by
    rfl
  have hstep : PoolStep 3 (List.replicate 10 TaskPhase.pending)
      (TaskPhase.active :: List.replicate 9 TaskPhase.pending) := by
    rw [heq]
    exact PoolStep.acquire [] (List.replicate 9 TaskPhase.pending) (by decide)
  have hr : PoolReachable 3 10 (TaskPhase.active :: List.replicate 9 TaskPhase.pending) :=
    PoolReachable.step h0 hstep
  exact ⟨hr, pool_never_exceeds_limit 3 10 _ hr⟩

/-! ### Pagination walker lemmas -/

theorem walkAux_succ (c : Clock) (pages : Nat → List RawItem)
    (tf : Option (CalDateTime → Bool)) (fuel pageNum noCount : Nat) :
    walkAux c pages tf (fuel + 1) pageNum noCount =
      if scrapeSinglePage c pages pageNum tf = [] then
        if noCount + 1 ≥ 3 then ([], [pageNum])
        else
          ((walkAux c pages tf fuel (pageNum + 1) (noCount + 1)).1,
           pageNum :: (walkAux c pages tf fuel (pageNum + 1) (noCount + 1)).2)
      else
        if stopByTime tf (scrapeSinglePage c pages pageNum tf) then
          (scrapeSinglePage c pages pageNum tf, [pageNum])
        else
          (scrapeSinglePage c pages pageNum tf ++
             (walkAux c pages tf fuel (pageNum + 1) 0).1,
           pageNum :: (walkAux c pages tf fuel (pageNum + 1) 0).2) := rfl

/-- With a pure per-item filter, the window-boundary check of the walker
can never fire: the last element of the already-filtered page passed the
same filter when it was extracted. -/
theorem stopByTime_scrape_false (c : Clock) (pages : Nat → List RawItem)
    (tf : Option (CalDateTime → Bool)) (pageNum : Nat) :
    stopByTime tf (scrapeSinglePage c pages pageNum tf) = false := by
  cases tf with
  | none => simp [stopByTime]
  | some f =>
    cases h : (scrapeSinglePage c pages pageNum (some f)).getLast? with
    | none => simp [stopByTime, h]
    | some last =>
      have hmem : last ∈ scrapeSinglePage c pages pageNum (some f) :=
        List.mem_of_getLast?_eq_some h
      obtain ⟨it, _, hext⟩ := List.mem_filterMap.mp hmem
      have hf : f last.published_at = true := extract_filter_pass c it f last hext
      simp [stopByTime, h, hf]

theorem walkAux_nonempty_step (c : Clock) (pages : Nat → List RawItem)
    (tf : Option (CalDateTime → Bool)) (fuel pageNum noCount : Nat)
    (hne : scrapeSinglePage c pages pageNum tf ≠ []) :
    walkAux c pages tf (fuel + 1) pageNum noCount =
      (scrapeSinglePage c pages pageNum tf ++
         (walkAux c pages tf fuel (pageNum + 1) 0).1,
       pageNum :: (walkAux c pages tf fuel (pageNum + 1) 0).2) := by
  rw [walkAux_succ, if_neg hne, stopByTime_scrape_false, if_neg Bool.false_ne_true]

theorem walkAux_fetched_range (c : Clock) (pages : Nat → List RawItem)
    (tf : Option (CalDateTime → Bool)) :
    ∀ fuel pageNum noCount, ∃ k, k ≤ fuel ∧
      (walkAux c pages tf fuel pageNum noCount).2 = List.range' pageNum k := by
  intro fuel
  induction fuel with
  | zero => intro pageNum noCount; exact ⟨0, Nat.le_refl 0, rfl⟩
  | succ f ih =>
    intro pageNum noCount
    rw [walkAux_succ]
    by_cases he : scrapeSinglePage c pages pageNum tf = []
    · rw [if_pos he]
      by_cases h3 : noCount + 1 ≥ 3
      · rw [if_pos h3]
        exact ⟨1, by omega, by simp [List.range'_succ]⟩
      · rw [if_neg h3]
        obtain ⟨k, hk, heq⟩ := ih (pageNum + 1) (noCount + 1)
        exact ⟨k + 1, by omega, by simp [List.range'_succ, heq]⟩
    · rw [if_neg he, stopByTime_scrape_false, if_neg Bool.false_ne_true]
      obtain ⟨k, hk, heq⟩ := ih (pageNum + 1) 0
      exact ⟨k + 1, by omega, by simp [List.range'_succ, heq]⟩

theorem walkAux_one_empty_bound (c : Clock) (pages : Nat → List RawItem)
    (tf : Option (CalDateTime → Bool)) (q : Nat)
    (hq : scrapeSinglePage c pages q tf = []) :
    ∀ fuel nc, 2 ≤ nc → ∀ x ∈ (walkAux c pages tf fuel q nc).2, x ≤ q := by
  intro fuel
  cases fuel with
  | zero => intro nc _ x hx; simp [walkAux] at hx
  | succ f =>
    intro nc h2 x hx
    rw [walkAux_succ, if_pos hq, if_pos (by omega)] at hx
    simp at hx
    omega

theorem walkAux_two_empty_bound (c : Clock) (pages : Nat → List RawItem)
    (tf : Option (CalDateTime → Bool)) (q : Nat)
    (hq : scrapeSinglePage c pages q tf = [])
    (hq1 : scrapeSinglePage c pages (q + 1) tf = []) :
    ∀ fuel nc, 1 ≤ nc → ∀ x ∈ (walkAux c pages tf fuel q nc).2, x ≤ q + 1 := by
  intro fuel
  cases fuel with
  | zero => intro nc _ x hx; simp [walkAux] at hx
  | succ f =>
    intro nc h1 x hx
    rw [walkAux_succ, if_pos hq] at hx
    by_cases h3 : nc + 1 ≥ 3
    · rw [if_pos h3] at hx
      simp at hx
      omega
    · rw [if_neg h3] at hx
      simp at hx
      rcases hx with hx | hx
      · omega
      · have := walkAux_one_empty_bound c pages tf (q + 1) hq1 f (nc + 1)
          (by omega) x hx
        omega

theorem walkAux_three_empty_stop (c : Clock) (pages : Nat → List RawItem)
    (tf : Option (CalDateTime → Bool)) (p : Nat)
    (hp : scrapeSinglePage c pages p tf = [])
    (hp1 : scrapeSinglePage c pages (p + 1) tf = [])
    (hp2 : scrapeSinglePage c pages (p + 2) tf = []) :
    ∀ fuel pageNum nc, pageNum ≤ p →
      p + 3 ∉ (walkAux c pages tf fuel pageNum nc).2 := by
  intro fuel
  induction fuel with
  | zero => intro pageNum nc _ h; simp [walkAux] at h
  | succ f ih =>
    intro pageNum nc hle h
    rw [walkAux_succ] at h
    by_cases he : scrapeSinglePage c pages pageNum tf = []
    · rw [if_pos he] at h
      by_cases h3 : nc + 1 ≥ 3
      · rw [if_pos h3] at h
        simp at h
        omega
      · rw [if_neg h3] at h
        simp at h
        rcases h with h | h
        · omega
        · by_cases hpn : pageNum = p
          · subst hpn
            have hb := walkAux_two_empty_bound c pages tf (pageNum + 1) hp1
              (by simpa [Nat.add_assoc] using hp2) f (nc + 1) (by omega) _ h
            omega
          · exact ih (pageNum + 1) (nc + 1) (by omega) h
    · rw [if_neg he, stopByTime_scrape_false, if_neg Bool.false_ne_true] at h
      simp at h
      rcases h with h | h
      · omega
      · have hpn : pageNum ≠ p := fun e => he (e ▸ hp)
        exact ih (pageNum + 1) 0 (by omega) h

theorem walkAux_head_mem (c : Clock) (pages : Nat → List RawItem)
    (tf : Option (CalDateTime → Bool)) (fuel pageNum nc : Nat) (hf : 1 ≤ fuel) :
    pageNum ∈ (walkAux c pages tf fuel pageNum nc).2 := by
  cases fuel with
  | zero => omega
  | succ f =>
    rw [walkAux_succ]
    by_cases he : scrapeSinglePage c pages pageNum tf = []
    · rw [if_pos he]
      by_cases h3 : nc + 1 ≥ 3
      · rw [if_pos h3]; simp
      · rw [if_neg h3]; simp
    · rw [if_neg he, stopByTime_scrape_false, if_neg Bool.false_ne_true]; simp

theorem walkAux_continue_after_nonempty (c : Clock) (pages : Nat → List RawItem)
    (tf : Option (CalDateTime → Bool)) :
    ∀ fuel pageNum nc p, p ∈ (walkAux c pages tf fuel pageNum nc).2 →
      scrapeSinglePage c pages p tf ≠ [] → p + 1 < pageNum + fuel →
      p + 1 ∈ (walkAux c pages tf fuel pageNum nc).2 := by
  intro fuel
  induction fuel with
  | zero => intro pageNum nc p hp _ _; simp [walkAux] at hp
  | succ f ih =>
    intro pageNum nc p hp hne hlt
    rw [walkAux_succ] at hp ⊢
    by_cases he : scrapeSinglePage c pages pageNum tf = []
    · rw [if_pos he] at hp ⊢
      by_cases h3 : nc + 1 ≥ 3
      · rw [if_pos h3] at hp ⊢
        simp at hp
        exact absurd he (hp ▸ hne)
      · rw [if_neg h3] at hp ⊢
        simp at hp ⊢
        rcases hp with hp | hp
        · exact absurd he (hp ▸ hne)
        · exact Or.inr (ih (pageNum + 1) (nc + 1) p hp hne (by omega))
    · rw [if_neg he, stopByTime_scrape_false, if_neg Bool.false_ne_true] at hp ⊢
      simp at hp ⊢
      rcases hp with hp | hp
      · subst hp
        exact Or.inr (walkAux_head_mem c pages tf f (p + 1) 0 (by omega))
      · exact Or.inr (ih (pageNum + 1) 0 p hp hne (by omega))

theorem walkAux_three_empty_run (c : Clock) (pages : Nat → List RawItem)
    (tf : Option (CalDateTime → Bool)) (p f : Nat)
    (hp : scrapeSinglePage c pages p tf = [])
    (hp1 : scrapeSinglePage c pages (p + 1) tf = [])
    (hp2 : scrapeSinglePage c pages (p + 2) tf = []) :
    walkAux c pages tf (f + 3) p 0 = ([], [p, p + 1, p + 2]) := by
  have h2 : walkAux c pages tf (f + 1) (p + 1 + 1) (1 + 1) = ([], [p + 1 + 1]) := by
    rw [walkAux_succ, if_pos (show scrapeSinglePage c pages (p + 1 + 1) tf = [] from hp2),
      if_pos (by omega)]
  have h1 : walkAux c pages tf (f + 2) (p + 1) (0 + 1) = ([], [p + 1, p + 2]) := by
    show walkAux c pages tf (f + 1 + 1) (p + 1) (0 + 1) = ([], [p + 1, p + 2])
    rw [walkAux_succ, if_pos hp1, if_neg (by omega), h2]
  show walkAux c pages tf (f + 2 + 1) p 0 = ([], [p, p + 1, p + 2])
  rw [walkAux_succ, if_pos hp, if_neg (by omega), h1]

theorem walkAux_scenario_prefix (c : Clock) (pages : Nat → List RawItem)
    (tf : Option (CalDateTime → Bool)) (f : Nat)
    (h1 : scrapeSinglePage c pages 1 tf ≠ [])
    (h2 : scrapeSinglePage c pages 2 tf ≠ [])
    (h3 : scrapeSinglePage c pages 3 tf ≠ [])
    (h4 : scrapeSinglePage c pages 4 tf = [])
    (h5 : scrapeSinglePage c pages 5 tf = [])
    (h6 : scrapeSinglePage c pages 6 tf = []) :
    (walkAux c pages tf (f + 6) 1 0).2 = [1, 2, 3, 4, 5, 6] := by
  have t4 : walkAux c pages tf (f + 3) (3 + 1) 0 = ([], [4, 5, 6]) :=
    walkAux_three_empty_run c pages tf 4 f h4
      (show scrapeSinglePage c pages (4 + 1) tf = [] from h5)
      (show scrapeSinglePage c pages (4 + 2) tf = [] from h6)
  have t3 : (walkAux c pages tf (f + 4) (2 + 1) 0).2 = [3, 4, 5, 6] := by
    show (walkAux c pages tf (f + 3 + 1) (2 + 1) 0).2 = [3, 4, 5, 6]
    rw [walkAux_nonempty_step c pages tf (f + 3) (2 + 1) 0 h3]
    show (2 + 1) :: (walkAux c pages tf (f + 3) (2 + 1 + 1) 0).2 = [3, 4, 5, 6]
    rw [show walkAux c pages tf (f + 3) (2 + 1 + 1) 0 = ([], [4, 5, 6]) from t4]
  have t2 : (walkAux c pages tf (f + 5) (1 + 1) 0).2 = [2, 3, 4, 5, 6] := by
    show (walkAux c pages tf (f + 4 + 1) (1 + 1) 0).2 = [2, 3, 4, 5, 6]
    rw [walkAux_nonempty_step c pages tf (f + 4) (1 + 1) 0 h2]
    show (1 + 1) :: (walkAux c pages tf (f + 4) (1 + 1 + 1) 0).2 = [2, 3, 4, 5, 6]
    rw [show (walkAux c pages tf (f + 4) (1 + 1 + 1) 0).2 = [3, 4, 5, 6] from t3]
  show (walkAux c pages tf (f + 5 + 1) 1 0).2 = [1, 2, 3, 4, 5, 6]
  rw [walkAux_nonempty_step c pages tf (f + 5) 1 0 h1]
  show (1 : Nat) :: (walkAux c pages tf (f + 5) (1 + 1) 0).2 = [1, 2, 3, 4, 5, 6]
  rw [show (walkAux c pages tf (f + 5) (1 + 1) 0).2 = [2, 3, 4, 5, 6] from t2]

/-- Claim C3: the walker fetches pages in increasing order starting at 1
and never more than maxPages of them; it stops as soon as three
consecutive fetched pages yield zero matching items; the counter resets —
after any fetched page with at least one item, the next page within the
bound is fetched too; and with pages 1-3 non-empty and pages 4-6 empty it
fetches exactly pages 1..6 and never page 7, even with maxPages = 20. -/
theorem pagination_order_bound_and_stop (c : Clock)
    (pages : Nat → List RawItem) (tf : Option (CalDateTime → Bool))
    (maxPages : Nat) :
    (∃ k, k ≤ maxPages ∧
      (scrapeArticlesWithPagination c pages maxPages tf).2 = List.range' 1 k) ∧
    (∀ p, 1 ≤ p →
      scrapeSinglePage c pages p tf = [] →
      scrapeSinglePage c pages (p + 1) tf = [] →
      scrapeSinglePage c pages (p + 2) tf = [] →
      p + 3 ∉ (scrapeArticlesWithPagination c pages maxPages tf).2) ∧
    (∀ p, p ∈ (scrapeArticlesWithPagination c pages maxPages tf).2 →
      scrapeSinglePage c pages p tf ≠ [] → p + 1 ≤ maxPages →
      p + 1 ∈ (scrapeArticlesWithPagination c pages maxPages tf).2) ∧
    (maxPages = 20 →
      scrapeSinglePage c pages 1 tf ≠ [] →
      scrapeSinglePage c pages 2 tf ≠ [] →
      scrapeSinglePage c pages 3 tf ≠ [] →
      scrapeSinglePage c pages 4 tf = [] →
      scrapeSinglePage c pages 5 tf = [] →
      scrapeSinglePage c pages 6 tf = [] →
      (scrapeArticlesWithPagination c pages maxPages tf).2 = [1, 2, 3, 4, 5, 6]) := by
  refine ⟨walkAux_fetched_range c pages tf maxPages 1 0, ?_, ?_, ?_⟩
  · intro p hp he1 he2 he3
    exact walkAux_three_empty_stop c pages tf p he1 he2 he3 maxPages 1 0 hp
  · intro p hp hne hle
    exact walkAux_continue_after_nonempty c pages tf maxPages 1 0 p hp hne (by omega)
  · intro hmax h1 h2 h3 h4 h5 h6
    subst hmax
    exact walkAux_scenario_prefix c pages tf 14 h1 h2 h3 h4 h5 h6

/-- Witness for C3 on the simulated sequence with pages 1-3 holding one
item each and pages 4 onwards empty: pages 1..6 are fetched, page 7 is
not, even though maxPages is 20. -/
theorem pagination_order_bound_and_stop_witness :
    (scrapeArticlesWithPagination demoClock demoPages 20 none).2 =
      [1, 2, 3, 4, 5, 6] ∧
    7 ∉ (scrapeArticlesWithPagination demoClock demoPages 20 none).2 := by
  have h := pagination_order_bound_and_stop demoClock demoPages none 20
  refine ⟨h.2.2.2 rfl (by decide) (by decide) (by decide)
      (by decide) (by decide) (by decide), ?_⟩
  exact h.2.1 4 (by omega) (by decide) (by decide) (by decide)

/-- Claim C4 at its failing input: every page lists an item that passes
the one-hour-style filter followed by one that fails it, so the last item
of every listing page fails the active time filter; the claim says the
walker must stop after page 1, but it fetches pages 2 and 3 as well —
the boundary check reads the last element of the already-filtered list,
which always passes the filter (stopByTime_scrape_false), so the
window-boundary stop of the source comment can never trigger. -/
theorem pagination_continues_past_window_boundary :
    demoFilter (teaserPublishedAt demoClock demoOldItem) = false ∧
    (scrapeArticlesWithPagination demoClock demoBoundaryPages 3
      (some demoFilter)).2 = [1, 2, 3] := by
  constructor
  · decide
  · decide

end ScraperNews
